import Mathlib

/-!
# Verification of the checkmate-mcp streaming core

Shallow embedding of the streaming event pipeline:

* `src/checkmate-client.ts` — `CheckmateClient.parseSSEStream`, the incremental
  Server-Sent-Events decoder (buffer append, split on newline, keep the last
  fragment, final-buffer check) and its reader lifecycle (`try`/`finally` with
  `reader.releaseLock()`).
* `server.ts` — the SSE relay proxy handlers
  `POST /proxy/test-cases/:testCaseId/runs/stream` and
  `POST /proxy/test-runs/execute/stream` (zod request validation, upstream
  fetch, non-ok short-circuit, header flush, pump loop, catch-all JSON error),
  modelled as trace-producing functions over an abstract fetch outcome.
* `ui-src/test-runner.ts` — `processEvent`, the run/step state machine folding
  decoded events into a `Map<number, StepState>`, and the run-outcome fold of
  the `run_test` / `run_natural_test` tool handlers
  (`events.find(e => e.type === "run_completed")`).

Byte streams are modelled at the character level (`List Char`): the source
decodes bytes with a streaming `TextDecoder`, which reassembles UTF-8 code
points across chunk boundaries, so arbitrary byte-level chunking corresponds
to arbitrary character-level chunking of the same logical text.  `JSON.parse`
is abstracted as a function `List Char → Option α` (`none` models a thrown
parse error); the behaviour of the decoder depends on it only pointwise.
-/

set_option linter.unusedVariables false

-- ===========================================================================
-- Frame decoder (checkmate-client.ts, parseSSEStream)
-- ===========================================================================

/-- Models `buffer.split("\n")` followed by `lines.pop()`: returns the complete lines
and the trailing fragment that is kept as the new buffer.  Matches JS
semantics: `"a\nb"` gives lines `["a"]` and fragment `"b"`; `"a\n"` gives
lines `["a"]` and fragment `""`. -/
def splitLines : List Char → List (List Char) × List Char
  | [] => ([], [])
  | c :: cs =>
    let p := splitLines cs
    if c = '\n' then ([] :: p.1, p.2)
    else
      match p.1 with
      | [] => ([], c :: p.2)
      | l :: ls => ((c :: l) :: ls, p.2)

/-- JS `String.prototype.trim()` on a character list (strips whitespace from
both ends). -/
def jsTrim (s : List Char) : List Char :=
  ((s.dropWhile Char.isWhitespace).reverse.dropWhile Char.isWhitespace).reverse

/-- The characters of the SSE data field marker `"data: "`. -/
def dataTag : List Char := ['d', 'a', 't', 'a', ':', ' ']

/-- One complete line of the SSE stream, as handled by the loop body of
`parseSSEStream`:

```
if (line.startsWith("data: ")) {
  const data = line.slice(6).trim();
  if (data) { try { yield JSON.parse(data); } catch (e) { console.error(...); } }
}
```

`parse` abstracts `JSON.parse` (`none` = the catch branch: the line is logged
and dropped, nothing is emitted). -/
def decodeLine {α : Type} (parse : List Char → Option α) (l : List Char) : Option α :=
  if l.take 6 = dataTag then
    let data := jsTrim (l.drop 6)
    if data = [] then none else parse data
  else none

/-- The chunk loop of `parseSSEStream` followed by the final-buffer check:
on each chunk the decoded text is appended to the buffer, the buffer is split
on newlines, the last fragment is kept, and every complete line goes through
`decodeLine`; when the reader reports done, the remaining buffer goes through
the same data-line handling once more. -/
def processChunks {α : Type} (parse : List Char → Option α) :
    List Char → List (List Char) → List α
  | buf, [] => (decodeLine parse buf).toList
  | buf, c :: cs =>
    let p := splitLines (buf ++ c)
    p.1.filterMap (decodeLine parse) ++ processChunks parse p.2 cs

/-- The decoder of `parseSSEStream`, run from an empty buffer over the successive
chunks delivered by the transport, yielding decoded events in order. -/
def parseSSE {α : Type} (parse : List Char → Option α) (chunks : List (List Char)) : List α :=
  processChunks parse [] chunks

/-- Reference semantics: the decoder applied to the whole logical text in one
step (split once, decode every complete line, then the final-buffer check on
the fragment). -/
def parseSSEWhole {α : Type} (parse : List Char → Option α) (s : List Char) : List α :=
  let p := splitLines s
  p.1.filterMap (decodeLine parse) ++ (decodeLine parse p.2).toList

/-- A payload `s` as it reaches the decoder on its own line: the complete line
is `"data: " ++ s` (the terminating newline is consumed by the split). -/
def decodePayload {α : Type} (parse : List Char → Option α) (s : List Char) : Option α :=
  decodeLine parse (dataTag ++ s)

/-- One full SSE frame on the wire for payload `s`: `"data: " ++ s ++ "\n"`. -/
def dataFrame (s : List Char) : List Char := dataTag ++ s ++ ['\n']

-- ===========================================================================
-- Stream client reader lifecycle (checkmate-client.ts, parseSSEStream)
-- ===========================================================================

/-- Operations the stream client can perform on the transport read handle. -/
inductive ReaderOp where
  | read
  | releaseLock
  | cancel
deriving Repr, DecidableEq

/-- The cleanup that `parseSSEStream` performs when consumption stops, taken
from its `finally` block:

```
} finally {
  reader.releaseLock();
}
```

The block contains a single `releaseLock()` and no `cancel()` call. -/
def parseSSEFinalizer : List ReaderOp := [ReaderOp.releaseLock]

/-- The trace of reader operations over one consumption of the generator
returned by `parseSSEStream`, in which the consumer requested `reads` chunk
reads before the stream ended or the consumer abandoned iteration.  Per
async-generator semantics the `finally` block runs exactly once in either
case (normal exhaustion falls out of the loop; early abandonment triggers the
`return()` method of the generator, which runs the `finally` block). -/
def parseSSEReaderTrace (reads : Nat) : List ReaderOp :=
  List.replicate reads ReaderOp.read ++ parseSSEFinalizer

-- ===========================================================================
-- Stream relay (server.ts, /proxy/... handlers)
-- ===========================================================================

/-- A JSON value as it appears in a parsed inbound request body (the subset
relevant to the proxy schemas; objects do not occur inside the validated
fields). -/
inductive Json where
  | num (n : Int)
  | str (s : String)
  | boolean (b : Bool)
  | null
  | arr (xs : List Json)
deriving Repr

/-- The closed browser enum of the proxy schemas:
`z.enum(["chromium", "chromium-headless", "firefox", "firefox-headless",
"webkit", "webkit-headless"])`. -/
def browserEnum : List String :=
  ["chromium", "chromium-headless", "firefox", "firefox-headless", "webkit", "webkit-headless"]

/-- Schema `browserSchema = z.enum([...]).optional()`: the field may be absent;
if present it must be one of the recognized browser engine names. -/
def browserFieldValid : Option Json → Bool
  | none => true
  | some (Json.str s) => browserEnum.contains s
  | some _ => false

/-- Check `z.number().int().positive()` applied to a JSON value. -/
def isPosInt : Json → Bool
  | Json.num n => 0 < n
  | _ => false

/-- Check `z.array(z.string()).min(1)` applied to a JSON value. -/
def isNonEmptyStringArr : Json → Bool
  | Json.arr xs =>
    (!xs.isEmpty) && xs.all (fun x => match x with | Json.str _ => true | _ => false)
  | _ => false

/-- Check `z.array(z.number().int().positive())` applied to a JSON value. -/
def isPosIntArr : Json → Bool
  | Json.arr xs => xs.all isPosInt
  | _ => false

/-- Inbound body of `POST /proxy/test-cases/:testCaseId/runs/stream`
(fields of interest to `testCaseRunSchema`). -/
structure TestCaseRunBody where
  browser : Option Json
deriving Repr

/-- Inbound body of `POST /proxy/test-runs/execute/stream`
(fields of interest to `executeStepsSchema`). -/
structure ExecuteStepsBody where
  project_id : Option Json
  steps : Option Json
  browser : Option Json
  fixture_ids : Option Json
deriving Repr

/-- Result of `testCaseRunSchema.safeParse(req.body).success`. -/
def testCaseRunValid (b : TestCaseRunBody) : Bool :=
  browserFieldValid b.browser

/-- Result of `executeStepsSchema.safeParse(req.body).success`:
`project_id` a positive integer, `steps` a non-empty string array, `browser`
absent or in the enum, `fixture_ids` absent or an array of positive
integers. -/
def executeStepsValid (b : ExecuteStepsBody) : Bool :=
  (match b.project_id with | some j => isPosInt j | none => false) &&
  (match b.steps with | some j => isNonEmptyStringArr j | none => false) &&
  browserFieldValid b.browser &&
  (match b.fixture_ids with | none => true | some j => isPosIntArr j)

/-- Outcome of one `reader.read()` on the upstream response body: either the
promise resolves with a chunk (done-with-no-value is the end of the list), or
it rejects, throwing into the `pump` loop. -/
inductive ReadOutcome where
  | chunk (data : String)
  | failure (msg : String)
deriving Repr, DecidableEq

/-- Outcome of `fetch(...)` for the upstream exchange: either the call throws
while establishing the connection, or it resolves to a response with the
given `ok` flag, status, statusText, body presence, and subsequent read
outcomes. -/
inductive FetchOutcome where
  | throws (msg : String)
  | response (ok : Bool) (status : Nat) (statusText : String) (hasBody : Bool)
      (reads : List ReadOutcome)
deriving Repr, DecidableEq

/-- Observable actions the relay handler performs on the downstream
connection (and the upstream fetch).  `jsonError s m` models a call to
`res.status(s).json({ error: m, ... })`; `writeChunk` models `res.write`;
`setSSEHeaders` models the three `setHeader` calls plus `flushHeaders`. -/
inductive RelayAction where
  | fetchUpstream
  | jsonError (status : Nat) (msg : String)
  | setSSEHeaders
  | writeChunk (data : String)
  | endResponse
deriving Repr, DecidableEq

/-- The `pump` loop: each resolved read is written downstream; when the reader
reports done the response is ended; a rejected read throws out of `pump` into
the enclosing `catch`, which calls `res.status(500).json({ error: message })`. -/
def pumpTrace : List ReadOutcome → List RelayAction
  | [] => [RelayAction.endResponse]
  | ReadOutcome.chunk d :: rest => RelayAction.writeChunk d :: pumpTrace rest
  | ReadOutcome.failure msg :: _ => [RelayAction.jsonError 500 msg]

/-- The shared `try { fetch ... } catch` body of both proxy handlers, after
validation has passed: fetch upstream; on an establishment exception the
catch answers a 500 JSON error; on a non-ok response a single JSON error with
the upstream status and `"Checkmate API error: " + statusText`; otherwise the
SSE headers are set and flushed and the body is pumped downstream. -/
def relayStream (f : FetchOutcome) : List RelayAction :=
  RelayAction.fetchUpstream ::
    match f with
    | FetchOutcome.throws msg => [RelayAction.jsonError 500 msg]
    | FetchOutcome.response ok status statusText hasBody reads =>
      if ok then
        if hasBody then RelayAction.setSSEHeaders :: pumpTrace reads
        else [RelayAction.setSSEHeaders, RelayAction.endResponse]
      else [RelayAction.jsonError status ("Checkmate API error: " ++ statusText)]

/-- Handler of `POST /proxy/test-cases/:testCaseId/runs/stream`: `parseInt` of the path
parameter (`none` models `NaN`) must be positive, then the body must satisfy
`testCaseRunSchema`, and only then is the upstream exchange opened. -/
def proxyTestCaseRunsHandler (testCaseId : Option Int) (b : TestCaseRunBody)
    (f : FetchOutcome) : List RelayAction :=
  match testCaseId with
  | none => [RelayAction.jsonError 400 "Invalid testCaseId: must be a positive integer"]
  | some n =>
    if n ≤ 0 then [RelayAction.jsonError 400 "Invalid testCaseId: must be a positive integer"]
    else if testCaseRunValid b then relayStream f
    else [RelayAction.jsonError 400 "Invalid request body"]

/-- Handler of `POST /proxy/test-runs/execute/stream`: the body must satisfy
`executeStepsSchema`, and only then is the upstream exchange opened. -/
def proxyExecuteStepsHandler (b : ExecuteStepsBody) (f : FetchOutcome) : List RelayAction :=
  if executeStepsValid b then relayStream f
  else [RelayAction.jsonError 400 "Invalid request body"]

/-- True when the remainder of a relay trace contains no JSON error
response. -/
def noJsonErrorIn : List RelayAction → Bool
  | [] => true
  | RelayAction.jsonError _ _ :: _ => false
  | _ :: rest => noJsonErrorIn rest

/-- The mutual-exclusion property of the two response modes: once a stream
byte has been written downstream, no JSON error response is attempted
afterwards. -/
def jsonErrorOnlyBeforeBytes : List RelayAction → Bool
  | [] => true
  | RelayAction.writeChunk _ :: rest => noJsonErrorIn rest
  | _ :: rest => jsonErrorOnlyBeforeBytes rest

/-- True when no `reader.read()` of the upstream body rejects. -/
def readsClean : List ReadOutcome → Bool
  | [] => true
  | ReadOutcome.chunk _ :: rest => readsClean rest
  | ReadOutcome.failure _ :: _ => false

/-- True when the upstream exchange suffers no mid-stream read failure
(an establishment exception still counts as clean: it happens before any
byte). -/
def fetchClean : FetchOutcome → Bool
  | FetchOutcome.throws _ => true
  | FetchOutcome.response _ _ _ _ reads => readsClean reads

/-- Is the action a downstream byte write? -/
def isWriteChunk : RelayAction → Bool
  | RelayAction.writeChunk _ => true
  | _ => false

/-- Is the action a JSON error response? -/
def isJsonError : RelayAction → Bool
  | RelayAction.jsonError _ _ => true
  | _ => false

-- ===========================================================================
-- Run/step state machine (ui-src/test-runner.ts)
-- ===========================================================================

/-- The `SSEEvent` interface of `test-runner.ts`: a type tag plus optional
fields (absent JS properties are `none`). -/
structure SSEEvent where
  type : String
  run_id : Option Nat := none
  total_steps : Option Nat := none
  step_number : Option Nat := none
  action : Option String := none
  target : Option String := none
  value : Option String := none
  status : Option String := none
  duration : Option Nat := none
  error : Option String := none
  screenshot : Option String := none
  retried : Option Bool := none
deriving Repr, DecidableEq

/-- The `StepState` interface of `test-runner.ts`. -/
structure StepState where
  number : Nat
  action : String
  target : Option String
  value : Option String
  status : String
  duration : Nat
  error : Option String
  screenshot : Option String
  retried : Option Bool
deriving Repr, DecidableEq

/-- JS `v || d` for an optional string `v` and a string default `d`
(`undefined` and the empty string are falsy). -/
def jsStr (v : Option String) (d : String) : String :=
  match v with
  | some s => if s = "" then d else s
  | none => d

/-- JS `v || null` for an optional string `v`. -/
def jsStrOrNull (v : Option String) : Option String :=
  match v with
  | some s => if s = "" then none else some s
  | none => none

/-- JS `v || 0` for an optional number `v`. -/
def jsNum (v : Option Nat) : Nat :=
  match v with
  | some n => n
  | none => 0

/-- The `steps: Map<number, StepState>` of the test-runner UI, as an
insertion-ordered association list with unique keys. -/
abbrev StepsMap := List (Nat × StepState)

/-- Models `steps.get(k)`. -/
def mapGet (m : StepsMap) (k : Nat) : Option StepState :=
  match m with
  | [] => none
  | p :: rest => if p.1 == k then some p.2 else mapGet rest k

/-- Models `steps.set(k, v)`: replaces the value at an existing key in place,
otherwise appends the new entry (JS `Map` insertion-order semantics). -/
def mapSet (m : StepsMap) (k : Nat) (v : StepState) : StepsMap :=
  match m with
  | [] => [(k, v)]
  | p :: rest => if p.1 == k then (k, v) :: rest else p :: mapSet rest k v

/-- The object built by the `step_started` case of `processEvent`:

```
steps.set(event.step_number, {
  number: event.step_number,
  action: event.action || "unknown",
  target: event.target || null,
  value: event.value || null,
  status: "running",
  duration: 0,
});
``` -/
def freshStep (n : Nat) (e : SSEEvent) : StepState :=
  { number := n
    action := jsStr e.action "unknown"
    target := jsStrOrNull e.target
    value := jsStrOrNull e.value
    status := "running"
    duration := 0
    error := none
    screenshot := none
    retried := none }

/-- The in-place update performed by the `step_completed` case of
`processEvent` when a `StepState` exists:

```
step.status = event.status || "passed";
step.duration = event.duration || 0;
step.error = event.error;
step.screenshot = event.screenshot;
step.retried = event.retried;
``` -/
def completeStep (st : StepState) (e : SSEEvent) : StepState :=
  { st with
    status := jsStr e.status "passed"
    duration := jsNum e.duration
    error := e.error
    screenshot := e.screenshot
    retried := e.retried }

/-- The function `processEvent` of `test-runner.ts`, restricted to its effect on the
`steps` map (the DOM update calls have no effect on the map).  The
`if (event.step_number)` guards use JS truthiness: both an absent
`step_number` and the number `0` fail the guard, leaving the map untouched.
`run_started` and `run_completed` do not touch the map. -/
def processEvent (m : StepsMap) (e : SSEEvent) : StepsMap :=
  if e.type == "step_started" then
    match e.step_number with
    | some n => if n == 0 then m else mapSet m n (freshStep n e)
    | none => m
  else if e.type == "step_completed" then
    match e.step_number with
    | some n =>
      if n == 0 then m
      else
        match mapGet m n with
        | some st => mapSet m n (completeStep st e)
        | none => m
    | none => m
  else m

/-- Models `events.forEach(processEvent)` over an initially cleared `steps` map. -/
def processEvents (es : List SSEEvent) : StepsMap :=
  es.foldl processEvent []

-- ===========================================================================
-- Run outcome fold (server.ts, run_test / run_natural_test handlers)
-- ===========================================================================

/-- The run-outcome fold of the `run_test` / `run_natural_test` tool
handlers:

```
const completedEvent = events.find((e) => e.type === "run_completed");
const status = completedEvent?.type === "run_completed" ? completedEvent.status : "unknown";
```

The result is the status field of the first `run_completed` event when one
exists (`none` modelling an absent field on it), and `"unknown"` otherwise. -/
def foldRunStatus (events : List SSEEvent) : Option String :=
  match events.find? (fun e => e.type == "run_completed") with
  | some e => e.status
  | none => some "unknown"

/-- Whether the test-runner UI ever shows its pass/fail summary for an event
sequence: `showSummary()` is invoked only by the `run_completed` case of
`processEvent`. -/
def uiSummaryShown (events : List SSEEvent) : Bool :=
  events.any (fun e => e.type == "run_completed")

-- ===========================================================================
-- Concrete instances used by witnesses and counterexamples
-- ===========================================================================

/-- A toy structured-payload parser for decoder witnesses: accepts exactly the
payloads beginning with `A`, rejects the rest (models `JSON.parse`
succeeding/throwing). -/
def c6parse : List Char → Option (List Char) :=
  fun s => if s.take 1 = ['A'] then some s else none

/-- Well-formed payloads before the malformed one. -/
def c6as : List (List Char) := [['A', '1']]

/-- The single malformed payload. -/
def c6b : List Char := ['b', 'a', 'd']

/-- Well-formed payloads after the malformed one. -/
def c6cs : List (List Char) := [['A', '2']]

/-- An upstream exchange that streams one chunk and ends normally. -/
def c3CleanFetch : FetchOutcome :=
  FetchOutcome.response true 200 "OK" true [ReadOutcome.chunk "data: ok\n"]

/-- An upstream exchange whose second read rejects after one chunk was already
forwarded downstream. -/
def c3BrokenFetch : FetchOutcome :=
  FetchOutcome.response true 200 "OK" true
    [ReadOutcome.chunk "data: x\n", ReadOutcome.failure "socket hang up"]

/-- A schema-valid body for `POST /proxy/test-runs/execute/stream`. -/
def c3GoodStepsBody : ExecuteStepsBody :=
  { project_id := some (Json.num 3)
    steps := some (Json.arr [Json.str "click the button"])
    browser := none
    fixture_ids := none }

/-- A body whose browser name is outside the recognized enum. -/
def c4BadRunBody : TestCaseRunBody :=
  { browser := some (Json.str "netscape") }

/-- A body with a non-positive project id and an empty step list. -/
def c4BadStepsBody : ExecuteStepsBody :=
  { project_id := some (Json.num 0)
    steps := some (Json.arr [])
    browser := none
    fixture_ids := none }

/-- A schema-valid body for `POST /proxy/test-cases/:testCaseId/runs/stream`. -/
def c8Body : TestCaseRunBody :=
  { browser := some (Json.str "firefox") }

/-- A `step_completed` event for a step that was never started. -/
def c2Event : SSEEvent :=
  { type := "step_completed", step_number := some 1, action := some "click",
    status := some "passed", duration := some 120 }

/-- Another `step_completed` without a preceding `step_started`. -/
def c2wEvent : SSEEvent :=
  { type := "step_completed", step_number := some 3, status := some "passed" }

/-- A `step_started` for step 1. -/
def c7Start : SSEEvent :=
  { type := "step_started", step_number := some 1, action := some "click" }

/-- The matching `step_completed` for step 1 with status `passed`. -/
def c7Done : SSEEvent :=
  { type := "step_completed", step_number := some 1, status := some "passed",
    duration := some 120 }

/-- The steps map after step 1 started and completed as `passed`. -/
def c7Map : StepsMap := processEvents [c7Start, c7Done]

/-- An event sequence that ends without a `run_completed` (mid-stream drop). -/
def c9Events : List SSEEvent :=
  [{ type := "run_started", run_id := some 1, total_steps := some 2 },
   { type := "step_started", step_number := some 1, action := some "navigate" },
   { type := "step_completed", step_number := some 1, status := some "passed" }]

/-- An existing step state used to show the map is left untouched. -/
def c10Step : StepState :=
  { number := 1, action := "click", target := none, value := none,
    status := "passed", duration := 5, error := none, screenshot := none,
    retried := none }

/-- A `step_completed` event whose `step_number` is 0. -/
def c10Event : SSEEvent :=
  { type := "step_completed", step_number := some 0, status := some "failed" }

-- ===========================================================================
-- Theorems
-- ===========================================================================

-- ---- Decoder helper lemmas ----

theorem splitLines_newline (cs : List Char) :
    splitLines ('\n' :: cs) = ([] :: (splitLines cs).1, (splitLines cs).2) := by
  simp [splitLines]

theorem splitLines_cons_of_fst_nil {c : Char} (hc : ¬ c = '\n') {cs : List Char}
    (h : (splitLines cs).1 = []) :
    splitLines (c :: cs) = ([], c :: (splitLines cs).2) := by
  simp [splitLines, hc, h]

theorem splitLines_cons_of_fst_cons {c : Char} (hc : ¬ c = '\n') {cs l : List Char}
    {ls : List (List Char)} (h : (splitLines cs).1 = l :: ls) :
    splitLines (c :: cs) = ((c :: l) :: ls, (splitLines cs).2) := by
  simp [splitLines, hc, h]

theorem splitLines_append (a b : List Char) :
    splitLines (a ++ b) =
      ((splitLines a).1 ++ (splitLines ((splitLines a).2 ++ b)).1,
        (splitLines ((splitLines a).2 ++ b)).2) := by
  induction a with
  | nil => simp [splitLines]
  | cons c cs ih =>
    by_cases hc : c = '\n'
    · subst hc
      rw [List.cons_append, splitLines_newline, splitLines_newline cs]
      simp [ih]
    · cases h : (splitLines cs).1 with
      | nil =>
        rw [List.cons_append, splitLines_cons_of_fst_nil hc h, List.nil_append,
          List.cons_append]
        cases hX : (splitLines ((splitLines cs).2 ++ b)).1 with
        | nil =>
          have hL : (splitLines (cs ++ b)).1 = [] := by simp [ih, h, hX]
          rw [splitLines_cons_of_fst_nil hc hL, splitLines_cons_of_fst_nil hc hX]
          simp [ih]
        | cons l ls =>
          have hL : (splitLines (cs ++ b)).1 = l :: ls := by simp [ih, h, hX]
          rw [splitLines_cons_of_fst_cons hc hL, splitLines_cons_of_fst_cons hc hX]
          simp [ih]
      | cons l ls =>
        have hL : (splitLines (cs ++ b)).1 =
            l :: (ls ++ (splitLines ((splitLines cs).2 ++ b)).1) := by
          simp [ih, h]
        rw [List.cons_append, splitLines_cons_of_fst_cons hc hL,
          splitLines_cons_of_fst_cons hc h]
        simp [ih]

theorem newline_not_mem_splitLines_snd (s : List Char) : '\n' ∉ (splitLines s).2 := by
  induction s with
  | nil => simp [splitLines]
  | cons c cs ih =>
    by_cases hc : c = '\n'
    · subst hc
      rw [splitLines_newline]
      exact ih
    · cases h : (splitLines cs).1 with
      | nil =>
        rw [splitLines_cons_of_fst_nil hc h]
        show ('\n' : Char) ∉ c :: (splitLines cs).2
        simp only [List.mem_cons, not_or]
        exact ⟨fun hcc => hc hcc.symm, ih⟩
      | cons l ls =>
        rw [splitLines_cons_of_fst_cons hc h]
        exact ih

theorem splitLines_of_no_newline {s : List Char} (h : '\n' ∉ s) :
    splitLines s = ([], s) := by
  induction s with
  | nil => rfl
  | cons c cs ih =>
    have hc : ¬ c = '\n' := fun hcc => h (hcc ▸ List.mem_cons_self c cs)
    have hcs : '\n' ∉ cs := fun hm => h (List.mem_cons_of_mem c hm)
    rw [splitLines_cons_of_fst_nil hc (by rw [ih hcs]), ih hcs]

theorem processChunks_eq_whole {α : Type} (parse : List Char → Option α)
    (cs : List (List Char)) :
    ∀ buf : List Char, '\n' ∉ buf →
      processChunks parse buf cs = parseSSEWhole parse (buf ++ cs.flatten) := by
  induction cs with
  | nil =>
    intro buf hbuf
    rw [processChunks, parseSSEWhole]
    simp [splitLines_of_no_newline hbuf]
  | cons c cs ih =>
    intro buf hbuf
    rw [processChunks]
    rw [ih (splitLines (buf ++ c)).2 (newline_not_mem_splitLines_snd (buf ++ c))]
    rw [parseSSEWhole, parseSSEWhole]
    have hsplit := splitLines_append (buf ++ c) cs.flatten
    simp only [List.flatten_cons, ← List.append_assoc]
    rw [hsplit]
    simp

/-- C1: for every logical text stream and every way of partitioning it into
successive chunks, the SSE decoder of `parseSSEStream` (buffer append, split
on newline, keep the last fragment, final-buffer check) yields exactly the
same sequence of decoded events: the output depends only on the
concatenation of the chunks, so a `data: ` line split across a chunk
boundary — even mid-line or mid-payload — is still decoded as one event. -/
theorem c1_chunking_invariance {α : Type} (parse : List Char → Option α)
    (cs ds : List (List Char)) (h : cs.flatten = ds.flatten) :
    parseSSE parse cs = parseSSE parse ds := by
  unfold parseSSE
  rw [processChunks_eq_whole parse cs [] (by simp),
    processChunks_eq_whole parse ds [] (by simp), h]

/-- Witness for C1: the frame `data: hello\n` delivered split mid-line into
the two chunks `data: hel` and `lo\n` decodes identically to the same frame
delivered as one chunk. -/
theorem c1_witness :
    parseSSE (fun s => some s) ["data: hel".toList, "lo\n".toList] =
      parseSSE (fun s => some s) ["data: hello\n".toList] :=
  c1_chunking_invariance (fun s => some s) ["data: hel".toList, "lo\n".toList]
    ["data: hello\n".toList] (by decide)

theorem splitLines_line_append {l : List Char} (hl : '\n' ∉ l) (rest : List Char) :
    splitLines (l ++ '\n' :: rest) = (l :: (splitLines rest).1, (splitLines rest).2) := by
  induction l with
  | nil => simpa using splitLines_newline rest
  | cons c cs ih =>
    have hc : ¬ c = '\n' := fun hcc => hl (hcc ▸ List.mem_cons_self c cs)
    have hcs : '\n' ∉ cs := fun hm => hl (List.mem_cons_of_mem c hm)
    rw [List.cons_append, splitLines_cons_of_fst_cons hc (by rw [ih hcs]), ih hcs]

theorem newline_not_mem_dataTag_payload {s : List Char} (h : ('\n' : Char) ∉ s) :
    ('\n' : Char) ∉ dataTag ++ s := by
  intro hm
  rcases List.mem_append.mp hm with h1 | h2
  · exact absurd h1 (by decide)
  · exact h h2

theorem splitLines_frames (ps : List (List Char)) (h : ∀ s ∈ ps, ('\n' : Char) ∉ s) :
    splitLines (ps.map dataFrame).flatten = (ps.map (fun s => dataTag ++ s), []) := by
  induction ps with
  | nil => simp [splitLines]
  | cons a ps ih =>
    have ha : ('\n' : Char) ∉ dataTag ++ a :=
      newline_not_mem_dataTag_payload (h a (List.mem_cons_self a ps))
    have harr : (dataFrame a :: ps.map dataFrame).flatten =
        (dataTag ++ a) ++ '\n' :: (ps.map dataFrame).flatten := by
      simp [dataFrame]
    rw [List.map_cons, harr, splitLines_line_append ha,
      ih (fun s hs => h s (List.mem_cons_of_mem a hs))]
    simp

theorem decodeLine_nil {α : Type} (parse : List Char → Option α) :
    decodeLine parse [] = none := by
  simp [decodeLine, dataTag]

theorem length_filterMap_all_some {α β : Type} (f : α → Option β) :
    ∀ l : List α, (∀ x ∈ l, (f x).isSome = true) → (l.filterMap f).length = l.length := by
  intro l h
  induction l with
  | nil => rfl
  | cons x xs ih =>
    rcases Option.isSome_iff_exists.mp (h x (List.mem_cons_self x xs)) with ⟨y, hy⟩
    rw [List.filterMap_cons, hy]
    simp [ih (fun z hz => h z (List.mem_cons_of_mem x hz))]

/-- C6: an input stream of data lines of which exactly one payload fails to
parse (the decoder catches the parse error, logs and discards the line) emits
exactly the well-formed payloads before and after it, in order — N lines with
one malformed yield N-1 events, and the malformed payload never terminates
the stream. -/
theorem c6_malformed_payload_skipped {α : Type} (parse : List Char → Option α)
    (as cs : List (List Char)) (b : List Char)
    (hnl : ∀ s ∈ as ++ b :: cs, ('\n' : Char) ∉ s)
    (ha : ∀ s ∈ as, (decodePayload parse s).isSome = true)
    (hb : decodePayload parse b = none)
    (hc : ∀ s ∈ cs, (decodePayload parse s).isSome = true) :
    parseSSE parse [((as ++ b :: cs).map dataFrame).flatten] =
        as.filterMap (decodePayload parse) ++ cs.filterMap (decodePayload parse) ∧
      (parseSSE parse [((as ++ b :: cs).map dataFrame).flatten]).length =
        as.length + cs.length := by
  have hwhole : parseSSE parse [((as ++ b :: cs).map dataFrame).flatten] =
      as.filterMap (decodePayload parse) ++ cs.filterMap (decodePayload parse) := by
    unfold parseSSE
    rw [processChunks_eq_whole parse _ [] (by simp)]
    simp only [List.nil_append, List.flatten_cons, List.flatten_nil, List.append_nil]
    rw [parseSSEWhole, splitLines_frames (as ++ b :: cs) hnl]
    simp only [decodeLine_nil, Option.toList_none, List.append_nil]
    rw [List.filterMap_map]
    have hcomp : (decodeLine parse ∘ fun s => dataTag ++ s) = decodePayload parse := rfl
    rw [hcomp, List.filterMap_append, List.filterMap_cons, hb]
  refine ⟨hwhole, ?_⟩
  rw [hwhole, List.length_append, length_filterMap_all_some _ as ha,
    length_filterMap_all_some _ cs hc]

/-- Witness for C6: three data lines, the middle payload malformed, emit
exactly the two well-formed events. -/
theorem c6_witness :
    parseSSE c6parse [((c6as ++ c6b :: c6cs).map dataFrame).flatten] =
        c6as.filterMap (decodePayload c6parse) ++ c6cs.filterMap (decodePayload c6parse) ∧
      (parseSSE c6parse [((c6as ++ c6b :: c6cs).map dataFrame).flatten]).length =
        c6as.length + c6cs.length :=
  c6_malformed_payload_skipped c6parse c6as c6cs c6b (by decide) (by decide) (by decide)
    (by decide)

-- ---- Stream client lifecycle (C5) ----

/-- Counterexample for C5 as stated: the reader-operation trace of a
consumption abandoned early (after 2 of the reads of the stream) contains no
cancellation signal at all — `parseSSEStream` only releases the reader lock
in its `finally` block and never calls `cancel()` on the reader or the
response body, so the upstream connection is not torn down. -/
theorem c5_counterexample : ReaderOp.cancel ∉ parseSSEReaderTrace 2 := by decide

/-- C5 amended: on every consumption of the stream — exhausted or abandoned
early after any number of reads — the transport read handle is released
exactly once, but no cancellation is ever signalled to the underlying
transport. -/
theorem c5_release_once_no_cancel (reads : Nat) :
    (parseSSEReaderTrace reads).count ReaderOp.releaseLock = 1 ∧
      (parseSSEReaderTrace reads).count ReaderOp.cancel = 0 := by
  constructor <;>
    · induction reads with
      | zero => rfl
      | succ k ih =>
        rw [parseSSEReaderTrace, List.replicate_succ, List.cons_append, List.count_cons]
        simpa [parseSSEReaderTrace] using ih

/-- Witness for the amended C5 theorem at a concrete consumption length. -/
theorem c5_witness :
    (parseSSEReaderTrace 3).count ReaderOp.releaseLock = 1 ∧
      (parseSSEReaderTrace 3).count ReaderOp.cancel = 0 :=
  c5_release_once_no_cancel 3

-- ---- Relay lemmas and theorems (C3, C4, C8) ----

theorem noJsonErrorIn_pumpTrace (rs : List ReadOutcome) (h : readsClean rs = true) :
    noJsonErrorIn (pumpTrace rs) = true := by
  induction rs with
  | nil => rfl
  | cons r rest ih =>
    cases r with
    | chunk d =>
      show noJsonErrorIn (pumpTrace rest) = true
      exact ih h
    | failure msg => simp [readsClean] at h

theorem mutex_pumpTrace (rs : List ReadOutcome) (h : readsClean rs = true) :
    jsonErrorOnlyBeforeBytes (pumpTrace rs) = true := by
  induction rs with
  | nil => rfl
  | cons r rest ih =>
    cases r with
    | chunk d =>
      show noJsonErrorIn (pumpTrace rest) = true
      exact noJsonErrorIn_pumpTrace rest h
    | failure msg => simp [readsClean] at h

/-- Counterexample for C3 as stated: when the upstream read rejects after a
chunk has already been forwarded, the catch-all of the proxy handler still
attempts `res.status(500).json(...)` — a JSON error response after stream
bytes were written, so the two response modes are not mutually exclusive on
every execution path. -/
theorem c3_counterexample :
    proxyTestCaseRunsHandler (some 1) ⟨none⟩ c3BrokenFetch =
        [RelayAction.fetchUpstream, RelayAction.setSSEHeaders,
          RelayAction.writeChunk "data: x\n",
          RelayAction.jsonError 500 "socket hang up"] ∧
      jsonErrorOnlyBeforeBytes (proxyTestCaseRunsHandler (some 1) ⟨none⟩ c3BrokenFetch) =
        false := by
  constructor <;> rfl

/-- C3 amended: the JSON-error and byte-streaming response modes are mutually
exclusive on every execution in which no upstream read rejects mid-stream —
validation errors, establishment exceptions and non-ok upstream statuses all
answer with a JSON error before any stream byte, and once a byte has been
written no further JSON error is attempted; the single exception, forced by
the counterexample, is a mid-stream read failure, where the catch-all still
attempts a JSON 500 after bytes were forwarded. -/
theorem c3_mutual_exclusion_when_reads_clean (tc : Option Int) (tb : TestCaseRunBody)
    (eb : ExecuteStepsBody) (f : FetchOutcome) (h : fetchClean f = true) :
    jsonErrorOnlyBeforeBytes (proxyTestCaseRunsHandler tc tb f) = true ∧
      jsonErrorOnlyBeforeBytes (proxyExecuteStepsHandler eb f) = true := by
  have hrelay : jsonErrorOnlyBeforeBytes (relayStream f) = true := by
    cases f with
    | throws msg => rfl
    | response ok status statusText hasBody reads =>
      cases ok with
      | false => rfl
      | true =>
        cases hasBody with
        | false => rfl
        | true =>
          show jsonErrorOnlyBeforeBytes (pumpTrace reads) = true
          exact mutex_pumpTrace reads h
  constructor
  · unfold proxyTestCaseRunsHandler
    cases tc with
    | none => rfl
    | some n =>
      by_cases hn : n ≤ 0
      · simp [hn, jsonErrorOnlyBeforeBytes]
      · cases hv : testCaseRunValid tb with
        | true => simp [hn, hv, hrelay]
        | false => simp [hn, hv, jsonErrorOnlyBeforeBytes, noJsonErrorIn]
  · unfold proxyExecuteStepsHandler
    cases hv : executeStepsValid eb with
    | true => simp [hv, hrelay]
    | false => simp [hv, jsonErrorOnlyBeforeBytes, noJsonErrorIn]

/-- Witness for the amended C3 theorem: a clean streaming exchange through both
handlers keeps the two response modes exclusive. -/
theorem c3_witness :
    jsonErrorOnlyBeforeBytes (proxyTestCaseRunsHandler (some 7) ⟨none⟩ c3CleanFetch) = true ∧
      jsonErrorOnlyBeforeBytes (proxyExecuteStepsHandler c3GoodStepsBody c3CleanFetch) =
        true :=
  c3_mutual_exclusion_when_reads_clean (some 7) ⟨none⟩ c3GoodStepsBody c3CleanFetch
    (by decide)

/-- C4: an inbound relay request whose body fails the schema (non-positive or
non-numeric identifiers, an empty step list, a browser name outside the
recognized enum) is answered with a 400 client-error JSON response carrying
validation details, and no upstream fetch is performed at all. -/
theorem c4_invalid_body_rejected_without_upstream (tc : Option Int)
    (tb : TestCaseRunBody) (eb : ExecuteStepsBody) (f : FetchOutcome)
    (htb : testCaseRunValid tb = false) (heb : executeStepsValid eb = false) :
    (proxyTestCaseRunsHandler tc tb f =
        [RelayAction.jsonError 400 "Invalid testCaseId: must be a positive integer"] ∨
      proxyTestCaseRunsHandler tc tb f = [RelayAction.jsonError 400 "Invalid request body"]) ∧
      RelayAction.fetchUpstream ∉ proxyTestCaseRunsHandler tc tb f ∧
      proxyExecuteStepsHandler eb f = [RelayAction.jsonError 400 "Invalid request body"] ∧
      RelayAction.fetchUpstream ∉ proxyExecuteStepsHandler eb f := by
  have hsteps : proxyExecuteStepsHandler eb f =
      [RelayAction.jsonError 400 "Invalid request body"] := by
    unfold proxyExecuteStepsHandler
    simp [heb]
  have hcase : proxyTestCaseRunsHandler tc tb f =
        [RelayAction.jsonError 400 "Invalid testCaseId: must be a positive integer"] ∨
      proxyTestCaseRunsHandler tc tb f = [RelayAction.jsonError 400 "Invalid request body"] := by
    unfold proxyTestCaseRunsHandler
    cases tc with
    | none => exact Or.inl rfl
    | some n =>
      by_cases hn : n ≤ 0
      · exact Or.inl (by simp [hn])
      · exact Or.inr (by simp [hn, htb])
  refine ⟨hcase, ?_, hsteps, ?_⟩
  · rcases hcase with hcase | hcase <;> rw [hcase] <;> simp
  · rw [hsteps]; simp

/-- Witness for C4: a browser name outside the enum and a body with a
non-positive project id and an empty step list are both rejected with the
400 JSON error and no upstream fetch. -/
theorem c4_witness :
    (proxyTestCaseRunsHandler (some 5) c4BadRunBody (FetchOutcome.throws "unreachable") =
        [RelayAction.jsonError 400 "Invalid testCaseId: must be a positive integer"] ∨
      proxyTestCaseRunsHandler (some 5) c4BadRunBody (FetchOutcome.throws "unreachable") =
        [RelayAction.jsonError 400 "Invalid request body"]) ∧
      RelayAction.fetchUpstream ∉
        proxyTestCaseRunsHandler (some 5) c4BadRunBody (FetchOutcome.throws "unreachable") ∧
      proxyExecuteStepsHandler c4BadStepsBody (FetchOutcome.throws "unreachable") =
        [RelayAction.jsonError 400 "Invalid request body"] ∧
      RelayAction.fetchUpstream ∉
        proxyExecuteStepsHandler c4BadStepsBody (FetchOutcome.throws "unreachable") :=
  c4_invalid_body_rejected_without_upstream (some 5) c4BadRunBody c4BadStepsBody
    (FetchOutcome.throws "unreachable") (by decide) (by decide)

/-- C8: for an upstream response with a non-success status the relay answers
exactly one JSON error response carrying the upstream status and the error
message built from the upstream statusText, and performs zero byte-forwarding
writes downstream — byte-streaming is never attempted. -/
theorem c8_non_ok_upstream_single_json_error (tcId : Int) (tb : TestCaseRunBody)
    (st : Nat) (stx : String) (hasBody : Bool) (reads : List ReadOutcome)
    (hpos : 0 < tcId) (hv : testCaseRunValid tb = true) :
    proxyTestCaseRunsHandler (some tcId) tb
        (FetchOutcome.response false st stx hasBody reads) =
        [RelayAction.fetchUpstream,
          RelayAction.jsonError st ("Checkmate API error: " ++ stx)] ∧
      ((proxyTestCaseRunsHandler (some tcId) tb
          (FetchOutcome.response false st stx hasBody reads)).filter isWriteChunk).length =
        0 ∧
      ((proxyTestCaseRunsHandler (some tcId) tb
          (FetchOutcome.response false st stx hasBody reads)).filter isJsonError).length =
        1 := by
  have hn : ¬ tcId ≤ 0 := not_le.mpr hpos
  have htrace : proxyTestCaseRunsHandler (some tcId) tb
      (FetchOutcome.response false st stx hasBody reads) =
      [RelayAction.fetchUpstream,
        RelayAction.jsonError st ("Checkmate API error: " ++ stx)] := by
    unfold proxyTestCaseRunsHandler
    simp [hn, hv, relayStream]
  refine ⟨htrace, ?_, ?_⟩ <;> rw [htrace] <;> simp [List.filter, isWriteChunk, isJsonError]

/-- Witness for C8: an upstream 404 yields the single JSON error trace with no
byte writes. -/
theorem c8_witness :
    proxyTestCaseRunsHandler (some 42) c8Body
        (FetchOutcome.response false 404 "Not Found" true []) =
        [RelayAction.fetchUpstream,
          RelayAction.jsonError 404 ("Checkmate API error: " ++ "Not Found")] ∧
      ((proxyTestCaseRunsHandler (some 42) c8Body
          (FetchOutcome.response false 404 "Not Found" true [])).filter isWriteChunk).length =
        0 ∧
      ((proxyTestCaseRunsHandler (some 42) c8Body
          (FetchOutcome.response false 404 "Not Found" true [])).filter isJsonError).length =
        1 :=
  c8_non_ok_upstream_single_json_error 42 c8Body 404 "Not Found" true [] (by decide)
    (by decide)

-- ---- Run/step state machine lemmas and theorems (C2, C7, C10) ----

theorem mapGet_mapSet_self (m : StepsMap) (k : Nat) (v : StepState) :
    mapGet (mapSet m k v) k = some v := by
  induction m with
  | nil => simp [mapSet, mapGet]
  | cons p rest ih =>
    cases h : p.1 == k with
    | true => simp [mapSet, mapGet, h]
    | false => simp [mapSet, mapGet, h, ih]

/-- Counterexample for C2: a `step_completed` for step 1 arriving with no
prior `step_started` leaves the steps map empty — no StepState is created
from the fields of the completed event; the event is dropped, not treated as both
start and finish. -/
theorem c2_counterexample : mapGet (processEvents [c2Event]) 1 = none := by decide

/-- C2 amended: a `step_completed` for a step number with no existing
StepState leaves the step collection completely unchanged — the event is
dropped; only an already-existing StepState is updated by `step_completed`. -/
theorem c2_completed_without_start_dropped (m : StepsMap) (e : SSEEvent) (n : Nat)
    (ht : e.type = "step_completed") (hn : e.step_number = some n)
    (hm : mapGet m n = none) :
    processEvent m e = m := by
  unfold processEvent
  rw [ht, hn]
  by_cases h0 : n = 0
  · simp [h0]
  · simp [h0, hm]

/-- Witness for the amended C2 theorem: a lone `step_completed` for step 3 on
an empty map changes nothing. -/
theorem c2_witness : processEvent [] c2wEvent = [] :=
  c2_completed_without_start_dropped [] c2wEvent 3 rfl rfl rfl

/-- Counterexample for C7: step 1 completed with status `passed`; a duplicate
`step_started` for step 1 then resets its status to `running` instead of
retaining the prior status, because the `step_started` case of `processEvent`
replaces the whole StepState unconditionally. -/
theorem c7_counterexample :
    (mapGet c7Map 1).map StepState.status = some "passed" ∧
      (mapGet (processEvent c7Map c7Start) 1).map StepState.status = some "running" ∧
      (mapGet (processEvent c7Map c7Start) 1).map StepState.status ≠ some "passed" := by
  refine ⟨by decide, by decide, by decide⟩

/-- C7 amended: on `step_started` for a non-zero step number N the state
machine unconditionally installs a fresh StepState for N (action/target/value
taken from the event, status `running`, duration 0), whether or not a
StepState for N already existed — a prior status is never retained. -/
theorem c7_started_installs_fresh_state (m : StepsMap) (e : SSEEvent) (n : Nat)
    (ht : e.type = "step_started") (hn : e.step_number = some n) (h0 : n ≠ 0) :
    mapGet (processEvent m e) n = some (freshStep n e) := by
  unfold processEvent
  rw [ht, hn]
  simp [h0, mapGet_mapSet_self]

/-- Witness for the amended C7 theorem: the duplicate `step_started` from the
counterexample installs exactly the fresh running StepState. -/
theorem c7_witness : mapGet (processEvent c7Map c7Start) 1 = some (freshStep 1 c7Start) :=
  c7_started_installs_fresh_state c7Map c7Start 1 rfl rfl (by decide)

/-- C10: a `step_started` or `step_completed` event whose `step_number` is
absent or 0 leaves the step collection completely unchanged — the JS
truthiness guard `if (event.step_number)` treats the number 0 like a missing
field, so a backend numbering steps from 0 would have its step-0 events
silently ignored. -/
theorem c10_zero_or_absent_step_ignored (m : StepsMap) (e : SSEEvent)
    (htype : e.type = "step_started" ∨ e.type = "step_completed")
    (hn : e.step_number = none ∨ e.step_number = some 0) :
    processEvent m e = m := by
  unfold processEvent
  rcases htype with ht | ht <;> rw [ht] <;> rcases hn with h | h <;> rw [h] <;> simp

/-- Witness for C10: a `step_completed` with `step_number` 0 leaves a
non-empty steps map untouched. -/
theorem c10_witness : processEvent [(1, c10Step)] c10Event = [(1, c10Step)] :=
  c10_zero_or_absent_step_ignored [(1, c10Step)] c10Event (Or.inr rfl) (Or.inr rfl)

-- ---- Run outcome fold (C9) ----

/-- C9: an event sequence that ends without any `run_completed` event never
folds to a `passed` outcome — the tool handlers report the status as
`unknown`, and the test-runner UI never shows its pass/fail summary; nothing
reports success for a run that did not reach a terminal status. -/
theorem c9_no_terminal_event_never_passed (events : List SSEEvent)
    (h : ∀ e ∈ events, e.type ≠ "run_completed") :
    foldRunStatus events = some "unknown" ∧
      foldRunStatus events ≠ some "passed" ∧
      uiSummaryShown events = false := by
  have hfind : events.find? (fun e => e.type == "run_completed") = none := by
    rw [List.find?_eq_none]
    intro e he
    simp [h e he]
  refine ⟨by simp [foldRunStatus, hfind], by simp [foldRunStatus, hfind], ?_⟩
  rw [uiSummaryShown]
  rw [List.any_eq_false]
  intro e he
  simp [h e he]

/-- Witness for C9: a run that started and completed one step but whose
stream dropped before `run_completed` folds to `unknown`, not `passed`. -/
theorem c9_witness :
    foldRunStatus c9Events = some "unknown" ∧
      foldRunStatus c9Events ≠ some "passed" ∧
      uiSummaryShown c9Events = false :=
  c9_no_terminal_event_never_passed c9Events (by decide)
